import Mathlib

/-!
Verification of the go-dctrack-client fetch-and-normalize pipeline.

The repository contains two client variants of the same design:
* the root package (`dctrack_client.go`): envelope shape B
  (`totalRows`/`pageNumber`/`pageSize`/`searchResults.items`), a record
  mapper that rejects records missing required fields, and
  `fmt.Sscanf`-based numeric coercion (prefix parsing);
* the `dctrack/` sub-package (`dctrack/config.go` client part together
  with the mapper file): envelope shape A (flat `records` list), a record
  mapper that always accepts with zero defaults, and
  `strconv`-based numeric coercion (whole-string parsing).

Embedding conventions:
* Go `int` and `time.Duration` become `Int`; `float64` becomes `ℚ`
  (every value the claims touch is exactly representable);
* Go `time.Time` is an abstract type parameter `τ`; the format list tried
  by `time.Parse` is abstracted as a `timeParse : String → Option τ`
  oracle and `time.Now()` as a `now : τ` value — no claim inspects dates;
* a decoded `map[string]interface{}` is a key/value list of `Json`
  values; `fmt.Sprintf` with the v verb on such a value is `goStringify`
  (JSON numbers are modelled as integers rendered in plain decimal; the
  composite renderings are only needed for totality — no claim uses them);
* HTTP exchanges are oracles: `login` takes the response status and the
  Authorization header value, `fetchPage` takes a per-attempt response
  oracle, the pagination loop takes a per-page fetch oracle;
* unbounded loops take explicit fuel and return `none` when it runs out.
-/

namespace DCTrack

/-- Model of a decoded JSON value as held in a Go `interface{}` after
`json.Unmarshal` (numbers restricted to integers, see module comment). -/
inductive Json where
  | null : Json
  | bool (b : Bool) : Json
  | str (s : String) : Json
  | int (n : Int) : Json
  | arr (xs : List Json) : Json
  | obj (kvs : List (String × Json)) : Json

mutual

/-- Go rendering of an `interface{}` under `fmt.Sprintf` with the v verb.
Faithful on the scalar cases the mappers meet (strings, booleans, nil);
integers render in plain decimal, composites in a bracketed form. -/
def goStringify : Json → String
  | .null => "<nil>"
  | .bool b => if b then "true" else "false"
  | .str s => s
  | .int n => toString n
  | .arr xs => "[" ++ String.intercalate " " (goStringifyList xs) ++ "]"
  | .obj kvs => "map[" ++ String.intercalate " " (goStringifyPairs kvs) ++ "]"

def goStringifyList : List Json → List String
  | [] => []
  | x :: xs => goStringify x :: goStringifyList xs

def goStringifyPairs : List (String × Json) → List String
  | [] => []
  | (k, v) :: kvs => (k ++ ":" ++ goStringify v) :: goStringifyPairs kvs

end

/-- A raw wire record: the `map[string]interface{}` a page envelope carries
for one item (keys are unique, access is by key). -/
abbrev RawRecord := List (String × Json)

/- Decimal scanning, shared by the models of `fmt.Sscanf` (prefix
   parsing, trailing input ignored) and `strconv.ParseFloat` /
   `strconv.Atoi` (whole string).  The special forms Go also accepts
   (hex mantissas, Inf, NaN, digit underscores) are outside the model;
   no claim touches them. -/

/-- Numeric value of a digit run. -/
def natOfDigits (ds : List Char) : Nat :=
  ds.foldl (fun acc c => acc * 10 + (c.toNat - 48)) 0

/-- Value of a fractional digit run. -/
def fracOfDigits (ds : List Char) : ℚ :=
  (natOfDigits ds : ℚ) / ((10 : ℚ) ^ ds.length)

/-- Consume an optional sign, returning whether it was a minus. -/
def scanSign : List Char → Bool × List Char
  | '+' :: r => (false, r)
  | '-' :: r => (true, r)
  | cs => (false, cs)

/-- Scale a decimal mantissa by a signed power of ten. -/
def applyExp (q : ℚ) (e : Int) : ℚ :=
  if 0 ≤ e then q * (10 : ℚ) ^ e.toNat else q / (10 : ℚ) ^ (-e).toNat

/-- Scan an unsigned decimal mantissa (`digits`, `digits.digits`,
`digits.` or `.digits`). -/
def scanMantissa (cs : List Char) : Option (ℚ × List Char) :=
  let (ip, r1) := cs.span (·.isDigit)
  match r1 with
  | '.' :: r2 =>
    let (fp, r3) := r2.span (·.isDigit)
    if ip.isEmpty && fp.isEmpty then none
    else some ((natOfDigits ip : ℚ) + fracOfDigits fp, r3)
  | _ => if ip.isEmpty then none else some ((natOfDigits ip : ℚ), r1)

/-- Scan an optional exponent part.  `none` means the part is malformed
(an `e` not followed by digits), failing the whole parse as Go does;
`some none` means no exponent part is present. -/
def scanExp : List Char → Option (Option (Int × List Char))
  | 'e' :: r | 'E' :: r =>
    let (neg, r2) := scanSign r
    let (ds, r3) := r2.span (·.isDigit)
    if ds.isEmpty then none
    else some (some ((if neg then -(natOfDigits ds : Int) else (natOfDigits ds : Int)), r3))
  | _ => some none

/-- Scan one decimal floating-point token, returning its value and the
unconsumed remainder. -/
def scanFloatTok (cs : List Char) : Option (ℚ × List Char) :=
  let (neg, r1) := scanSign cs
  match scanMantissa r1 with
  | none => none
  | some (m, r2) =>
    let v := if neg then -m else m
    match scanExp r2 with
    | none => none
    | some none => some (v, r2)
    | some (some (e, r3)) => some (applyExp v e, r3)

/-- Scan one signed decimal integer token. -/
def scanIntTok (cs : List Char) : Option (Int × List Char) :=
  let (neg, r1) := scanSign cs
  let (ds, r2) := r1.span (·.isDigit)
  if ds.isEmpty then none
  else some ((if neg then -(natOfDigits ds : Int) else (natOfDigits ds : Int)), r2)

/-- Model of `fmt.Sscanf(str, "%f", &f)`: skip leading white space, scan a
float token, ignore whatever trails it. -/
def sscanfFloat (s : String) : Option ℚ :=
  (scanFloatTok (s.toList.dropWhile (·.isWhitespace))).map (·.1)

/-- Model of `strconv.ParseFloat(str, 64)`: the whole string must be one
float token. -/
def parseFloatGo (s : String) : Option ℚ :=
  match scanFloatTok s.toList with
  | some (q, []) => some q
  | _ => none

/-- Model of `fmt.Sscanf(str, "%d", &i)`: skip leading white space, scan an
integer token, ignore whatever trails it. -/
def sscanfInt (s : String) : Option Int :=
  (scanIntTok (s.toList.dropWhile (·.isWhitespace))).map (·.1)

/-- Model of `strconv.Atoi(str)`: the whole string must be one integer
token. -/
def atoiGo (s : String) : Option Int :=
  match scanIntTok s.toList with
  | some (n, []) => some n
  | _ => none

/- Per-record accessors.  In the source these are closures local to each
   `mapDCTrackRecord`; `getString` and `getTime` are textually identical
   in the two variants and are shared here, the numeric accessors differ
   (`fmt.Sscanf` in the root package, `strconv` in the sub-package) and
   live in the `Root` and `Pkg` namespaces. -/

/-- `getString`: stringify a present, non-nil value; otherwise empty. -/
def getString (record : RawRecord) (key : String) : String :=
  match List.lookup key record with
  | none => ""
  | some Json.null => ""
  | some v => goStringify v

/-- `getTime`: on a present, non-nil, non-empty, non-`"null"` stringified
value, try the ordered list of time formats of the source — abstracted as the
`timeParse` oracle; otherwise no date. -/
def getTime {τ : Type} (timeParse : String → Option τ)
    (record : RawRecord) (key : String) : Option τ :=
  match List.lookup key record with
  | none => none
  | some Json.null => none
  | some v =>
    let str := goStringify v
    if str ≠ "" ∧ str ≠ "null" then timeParse str else none

namespace Root

/-- Root-package `getFloat`: guarded `fmt.Sscanf` with the f verb, `0` on
any failure. -/
def getFloat (record : RawRecord) (key : String) : ℚ :=
  match List.lookup key record with
  | none => 0
  | some Json.null => 0
  | some v =>
    let str := goStringify v
    if str ≠ "" ∧ str ≠ "null" then
      match sscanfFloat str with
      | some f => f
      | none => 0
    else 0

/-- Root-package `getInt`: guarded `fmt.Sscanf` with the d verb, `0` on
any failure. -/
def getInt (record : RawRecord) (key : String) : Int :=
  match List.lookup key record with
  | none => 0
  | some Json.null => 0
  | some v =>
    let str := goStringify v
    if str ≠ "" ∧ str ≠ "null" then
      match sscanfInt str with
      | some i => i
      | none => 0
    else 0

end Root

namespace Pkg

/-- Sub-package `getFloat`: guarded `strconv.ParseFloat`, `0` on any
failure. -/
def getFloat (record : RawRecord) (key : String) : ℚ :=
  match List.lookup key record with
  | none => 0
  | some Json.null => 0
  | some v =>
    let str := goStringify v
    if str ≠ "" ∧ str ≠ "null" then
      match parseFloatGo str with
      | some f => f
      | none => 0
    else 0

/-- Sub-package `getInt`: guarded `strconv.Atoi`, `0` on any failure. -/
def getInt (record : RawRecord) (key : String) : Int :=
  match List.lookup key record with
  | none => 0
  | some Json.null => 0
  | some v =>
    let str := goStringify v
    if str ≠ "" ∧ str ≠ "null" then
      match atoiGo str with
      | some i => i
      | none => 0
    else 0

/-- Sub-package `getBool`: true exactly on a present, non-nil value whose
rendering is `"true"` or `"1"`. -/
def getBool (record : RawRecord) (key : String) : Bool :=
  match List.lookup key record with
  | none => false
  | some Json.null => false
  | some v =>
    let str := goStringify v
    str == "true" || str == "1"

end Pkg

/-- `DCTrackItem`, the normalized domain entity.  Go `float64` fields are
`ℚ`, `*time.Time` fields are `Option τ`, `*string` fields are
`Option String`; every field defaults to the Go zero value except the
three bare `time.Time` fields, which both mappers always assign.  The Go
field `Type` is spelled `Typ` (`Type` is reserved in Lean). -/
structure DCTrackItem (τ : Type) where
  ID : String := ""
  Name : String := ""
  ItemClass : String := ""
  Typ : String := ""
  Status : String := ""
  Location : String := ""
  Cabinet : String := ""
  Rack : String := ""
  Position : String := ""
  Height : Int := 0
  Make : String := ""
  Model : String := ""
  SerialNumber : String := ""
  OriginalPower : ℚ := 0
  PowerConsumption : ℚ := 0
  SystemAdminTeam : String := ""
  PrimaryContact : String := ""
  InstallDate : Option τ := none
  LastServiceDate : Option τ := none
  TiSubclass : String := ""
  TiSerialNumber : String := ""
  TiAssetTag : String := ""
  TiFormFactor : String := ""
  TiMounting : String := ""
  TiWidth : ℚ := 0
  TiDepth : ℚ := 0
  TiWeight : ℚ := 0
  TiRuHeight : String := ""
  TiPotentialPower : ℚ := 0
  TiEffectivePower : ℚ := 0
  TiPowerCapacity : ℚ := 0
  TiPsRedundancy : String := ""
  TiPurchasePrice : ℚ := 0
  TiContractAmount : ℚ := 0
  CmbPlantBay : String := ""
  CmbCabinetID : String := ""
  CmbRowPosition : String := ""
  CmbRowLabel : String := ""
  TiFloorNodeCode : String := ""
  TiFloorName : String := ""
  TiRoomNodeCode : String := ""
  TiRoomName : String := ""
  TiIntegrationStatus : String := ""
  TiVmwareIntegrationStatus : String := ""
  TiCmdbIntegrationStatus : String := ""
  TiItemBudgetStatus : String := ""
  ChkItemAutoPowerBudget : Bool := false
  ChkDerateAmps : Bool := false
  IPAddresses : String := ""
  IPAddressPortName : String := ""
  TifreeDataPortCount : Int := 0
  TifreePowerPortCount : Int := 0
  TiPxUsername : String := ""
  TiSnmpWriteCommString : String := ""
  TiUsers : Int := 0
  TiRam : Int := 0
  TiProcesses : Int := 0
  TiCpuQuantity : Int := 0
  TiCpuType : String := ""
  TiPartNumber : String := ""
  InstallationDate : Option τ := none
  ContractEndDate : Option τ := none
  PurchaseDate : Option τ := none
  TiPlannedDecommDate : Option τ := none
  TiCustomFieldPrimaryContact : Option String := none
  TiCustomFieldContactTeamName : Option String := none
  TiCustomFieldAuditRemarks : Option String := none
  TiCustomFieldAuditDate : Option τ := none
  TiCustomFieldAuditBy : Option String := none
  TiCustomFieldWarrantyExpirationDate : Option τ := none
  TiCustomFieldAssetStatus : Option String := none
  TiCustomFieldPntIt : Option String := none
  CmbSystemAdminTeam : String := ""
  CmbSystemAdmin : String := ""
  CmbCustomer : String := ""
  TiPoNumber : String := ""
  TiNotes : String := ""
  LastUpdatedAt : τ
  CreatedAt : τ
  UpdatedAt : τ

namespace Root

/-- Root-package `mapDCTrackRecord` (`dctrack_client.go`): build the item
from the wire field names, then reject it when any of the five required
fields is empty.  `now` stands for `time.Now()`. -/
def mapDCTrackRecord {τ : Type} (now : τ) (timeParse : String → Option τ)
    (record : RawRecord) : Except String (DCTrackItem τ) :=
  let item : DCTrackItem τ :=
    { ID := getString record "id"
      Name := getString record "tiName"
      ItemClass := getString record "tiClass"
      Typ := getString record "tiClass"
      Status := getString record "cmbStatus"
      Location := getString record "cmbLocation"
      Cabinet := getString record "cmbCabinet"
      Rack := getString record "cmbCabinet"
      Position := getString record "cmbUPosition"
      Height := getInt record "tiRUs"
      Make := getString record "cmbMake"
      Model := getString record "cmbModel"
      SerialNumber := getString record "tiSerialNumber"
      OriginalPower := getFloat record "tiItemOriginalPower"
      PowerConsumption := getFloat record "tiEffectivePower"
      SystemAdminTeam := getString record "cmbSystemAdminTeam"
      PrimaryContact := getString record "tiCustomField_Primary Contact"
      InstallDate := getTime timeParse record "installationDate"
      LastServiceDate := getTime timeParse record "lastServiceDate"
      LastUpdatedAt :=
        match getTime timeParse record "lastUpdatedOn" with
        | some t => t
        | none => now
      CreatedAt := now
      UpdatedAt := now }
  if item.ID = "" then .error "missing required field: id"
  else if item.Name = "" then .error "missing required field: tiName"
  else if item.ItemClass = "" then .error "missing required field: tiClass"
  else if item.Status = "" then .error "missing required field: cmbStatus"
  else if item.Location = "" then .error "missing required field: cmbLocation"
  else .ok item

end Root

namespace Pkg

/-- Wrap a non-empty string, as the sub-package mapper idiom
of assigning the address of a non-empty `getString` result does. -/
def someIfNonEmpty (s : String) : Option String :=
  if s ≠ "" then some s else none

/-- Sub-package `mapDCTrackRecord`: assign every field of the item and
always succeed — no required-field validation. -/
def mapDCTrackRecord {τ : Type} (now : τ) (timeParse : String → Option τ)
    (record : RawRecord) : Except String (DCTrackItem τ) :=
  .ok
    { ID := getString record "id"
      Name := getString record "tiName"
      ItemClass := getString record "tiClass"
      Typ := getString record "tiClass"
      Status := getString record "cmbStatus"
      Location := getString record "cmbLocation"
      Cabinet := getString record "cmbCabinet"
      Rack := getString record "cmbCabinet"
      Position := getString record "cmbPosition"
      Height := getInt record "tiRUs"
      Make := getString record "cmbMake"
      Model := getString record "cmbModel"
      SerialNumber := getString record "tiSerialNumber"
      OriginalPower := getFloat record "tiItemOriginalPower"
      PowerConsumption := getFloat record "tiEffectivePower"
      SystemAdminTeam := getString record "cmbSystemAdminTeam"
      PrimaryContact := getString record "tiCustomField_Primary Contact"
      InstallDate := getTime timeParse record "installationDate"
      LastServiceDate := getTime timeParse record "lastServiceDate"
      TiSubclass := getString record "tiSubclass"
      TiSerialNumber := getString record "tiSerialNumber"
      TiAssetTag := getString record "tiAssetTag"
      TiFormFactor := getString record "tiFormFactor"
      TiMounting := getString record "tiMounting"
      TiWidth := getFloat record "tiWidth"
      TiDepth := getFloat record "tiDepth"
      TiWeight := getFloat record "tiWeight"
      TiRuHeight := getString record "tiRUs"
      TiPotentialPower := getFloat record "tiPotentialPower"
      TiEffectivePower := getFloat record "tiEffectivePower"
      TiPowerCapacity := getFloat record "tiPowerCapacity"
      TiPsRedundancy := getString record "tiPSRedundancy"
      TiPurchasePrice := getFloat record "tiPurchasePrice"
      TiContractAmount := getFloat record "tiContractAmount"
      CmbPlantBay := getString record "cmbPlantBay"
      CmbCabinetID := getString record "cmbCabinetId"
      CmbRowPosition := getString record "cmbRowPosition"
      CmbRowLabel := getString record "cmbRowLabel"
      TiFloorNodeCode := getString record "tiFloorNodeCode"
      TiFloorName := getString record "tiFloorName"
      TiRoomNodeCode := getString record "tiRoomNodeCode"
      TiRoomName := getString record "tiRoomName"
      TiIntegrationStatus := getString record "tiIntegrationStatus"
      TiVmwareIntegrationStatus := getString record "tiVMwareIntegrationStatus"
      TiCmdbIntegrationStatus := getString record "tiCmdbIntegrationStatus"
      TiItemBudgetStatus := getString record "tiItemBudgetStatus"
      ChkItemAutoPowerBudget := getBool record "chkItemAutoPowerBudget"
      ChkDerateAmps := getBool record "chkDerateAmps"
      IPAddresses := getString record "ipAddresses"
      IPAddressPortName := getString record "ipAddressPortName"
      TifreeDataPortCount := getInt record "tifreeDataPortCount"
      TifreePowerPortCount := getInt record "tifreePowerPortCount"
      TiPxUsername := getString record "tiPXUsername"
      TiSnmpWriteCommString := getString record "tiSnmpWriteCommString"
      TiUsers := getInt record "tiUsers"
      TiRam := getInt record "tiRAM"
      TiProcesses := getInt record "tiProcesses"
      TiCpuQuantity := getInt record "tiCpuQuantity"
      TiCpuType := getString record "tiCpuType"
      TiPartNumber := getString record "tiPartNumber"
      InstallationDate := getTime timeParse record "installationDate"
      ContractEndDate := getTime timeParse record "contractEndDate"
      PurchaseDate := getTime timeParse record "purchaseDate"
      TiPlannedDecommDate := getTime timeParse record "tiPlannedDecommDate"
      TiCustomFieldPrimaryContact :=
        someIfNonEmpty (getString record "tiCustomField_Primary Contact")
      TiCustomFieldContactTeamName :=
        someIfNonEmpty (getString record "tiCustomField_Contact Team Name")
      TiCustomFieldAuditRemarks :=
        someIfNonEmpty (getString record "tiCustomField_Audit Remarks")
      TiCustomFieldAuditBy :=
        someIfNonEmpty (getString record "tiCustomField_Audit By")
      TiCustomFieldAssetStatus :=
        someIfNonEmpty (getString record "tiCustomField_Asset Status")
      TiCustomFieldPntIt :=
        someIfNonEmpty (getString record "tiCustomField_PNT/IT")
      TiCustomFieldAuditDate := getTime timeParse record "tiCustomField_Audit Date"
      TiCustomFieldWarrantyExpirationDate :=
        getTime timeParse record "tiCustomField_Warranty Expiration Date"
      CmbSystemAdminTeam := getString record "cmbSystemAdminTeam"
      CmbSystemAdmin := getString record "cmbSystemAdmin"
      CmbCustomer := getString record "cmbCustomer"
      TiPoNumber := getString record "tiPONumber"
      TiNotes := getString record "tiNotes"
      LastUpdatedAt :=
        match getTime timeParse record "lastUpdatedOn" with
        | some t => t
        | none => now
      CreatedAt := now
      UpdatedAt := now }

end Pkg

/- Envelope decoding: models of `json.Unmarshal` into each variant
   `DCTrackResponse` struct (unknown object fields ignored, missing
   fields left at their zero values, JSON null leaves a field untouched,
   a type mismatch is an error, a top-level null is accepted and leaves
   the whole struct zero). -/

/-- Decode a JSON value into a Go `int` struct field. -/
def decIntField (kvs : List (String × Json)) (key : String) : Except String Int :=
  match List.lookup key kvs with
  | none => .ok 0
  | some .null => .ok 0
  | some (.int n) => .ok n
  | some _ => .error ("cannot unmarshal into int field " ++ key)

/-- Decode a JSON value into a Go `map[string]interface{}` (one raw
record); null leaves the map nil. -/
def decRawRecord : Json → Except String RawRecord
  | .obj kvs => .ok kvs
  | .null => .ok []
  | _ => .error "cannot unmarshal into map[string]interface"

/-- Decode a JSON value into a `[]map[string]interface{}`; null leaves
the slice nil. -/
def decRecordList : Json → Except String (List RawRecord)
  | .null => .ok []
  | .arr xs => xs.mapM decRawRecord
  | _ => .error "cannot unmarshal into record slice"

namespace Root

/-- Root-package `DCTrackResponse` (`dctrack_client.go`): shape B, with
the nested `searchResults.items` list flattened into one field. -/
structure DCTrackResponse where
  TotalRows : Int := 0
  PageNumber : Int := 0
  PageSize : Int := 0
  SearchResultsItems : List RawRecord := []

/-- Decode the nested `searchResults` struct of shape B. -/
def decSearchResults : Json → Except String (List RawRecord)
  | .obj kvs =>
    match List.lookup "items" kvs with
    | none => .ok []
    | some v => decRecordList v
  | .null => .ok []
  | _ => .error "cannot unmarshal into struct searchResults"

/-- Root-package envelope decoder: `json.Unmarshal` into the shape-B
`DCTrackResponse`. -/
def decodeDCTrackResponse (j : Json) : Except String DCTrackResponse :=
  match j with
  | .null => .ok {}
  | .obj kvs => do
    let tr ← decIntField kvs "totalRows"
    let pn ← decIntField kvs "pageNumber"
    let ps ← decIntField kvs "pageSize"
    let items ←
      match List.lookup "searchResults" kvs with
      | none => .ok []
      | some v => decSearchResults v
    .ok { TotalRows := tr, PageNumber := pn, PageSize := ps,
          SearchResultsItems := items }
  | _ => .error "cannot unmarshal into struct DCTrackResponse"

end Root

namespace Pkg

/-- Sub-package `DCTrackResponse`: shape A, a flat `records` list. -/
structure DCTrackResponse where
  Records : List RawRecord := []

/-- Sub-package envelope decoder: `json.Unmarshal` into the shape-A
`DCTrackResponse`. -/
def decodeDCTrackResponse (j : Json) : Except String DCTrackResponse :=
  match j with
  | .null => .ok {}
  | .obj kvs =>
    match List.lookup "records" kvs with
    | none => .ok {}
    | some v => do
      let rs ← decRecordList v
      .ok { Records := rs }
  | _ => .error "cannot unmarshal into struct DCTrackResponse"

end Pkg

/-- The per-record mapping loop of `fetchPage`: a record that fails to
map is logged and skipped, the rest of the page survives. -/
def mapRecords {τ : Type} (f : RawRecord → Except String (DCTrackItem τ)) :
    List RawRecord → List (DCTrackItem τ)
  | [] => []
  | r :: rs =>
    match f r with
    | .error _ => mapRecords f rs
    | .ok item => item :: mapRecords f rs

/-- Outcome of one HTTP exchange attempted by `fetchPage`:
`c.httpClient.Do` either fails at the network level or yields a status
code and a (decoded-JSON) body. -/
inductive ReqOutcome (ε : Type) where
  | netErr (e : ε)
  | resp (status : Int) (body : Json)

/-- The underlying failure remembered in `lastErr`. -/
inductive UnderlyingErr (ε : Type) where
  | net (e : ε)
  | httpStatus (code : Int)
deriving DecidableEq

/-- Errors `fetchPage` returns: retries exhausted wrapping the last
underlying failure (`none` when the loop body never ran), or a
non-retryable envelope decode failure. -/
inductive FetchErr (ε : Type) where
  | allRetriesFailed (last : Option (UnderlyingErr ε))
  | decodeErr (msg : String)
deriving DecidableEq

/-- Observable events of the retry loop: an attempt numbered as in the
source (first attempt is 1), and a `time.Sleep` of the configured fixed
delay between attempts. -/
inductive Event where
  | attempt (n : Int)
  | sleep (d : Int)
deriving DecidableEq

/-- The datum `failureOf o` is the `lastErr` value a failing exchange
outcome leaves behind; `none` means the exchange succeeded (status 200). -/
def failureOf {ε : Type} : ReqOutcome ε → Option (UnderlyingErr ε)
  | .netErr e => some (.net e)
  | .resp s _ => if s ≠ 200 then some (.httpStatus s) else none

namespace Root

/-- Body of the root-package `fetchPage` retry loop.  `fuel` is the number
of attempts still allowed (`maxRetries - attemptNo + 1`); `attemptNo <
maxRetries` is exactly `fuel > 1`, in which case a failure sleeps the
fixed delay and continues, otherwise it breaks out and the exhausted loop
wraps the last failure.  A 200 response is decoded (decode failure is
fatal, not retried) and its records mapped, skipping per-record failures. -/
def retryAux {τ ε : Type} (doAttempt : Int → ReqOutcome ε) (retryDelay : Int)
    (now : τ) (timeParse : String → Option τ) :
    Nat → Int → Option (UnderlyingErr ε) →
    List Event × Except (FetchErr ε) (List (DCTrackItem τ))
  | 0, _, lastErr => ([], .error (.allRetriesFailed lastErr))
  | Nat.succ f, attemptNo, _ =>
    match doAttempt attemptNo with
    | .netErr e =>
      if f = 0 then
        ([.attempt attemptNo], .error (.allRetriesFailed (some (.net e))))
      else
        let r := retryAux doAttempt retryDelay now timeParse f (attemptNo + 1)
          (some (.net e))
        (.attempt attemptNo :: .sleep retryDelay :: r.1, r.2)
    | .resp status body =>
      if status ≠ 200 then
        if f = 0 then
          ([.attempt attemptNo],
           .error (.allRetriesFailed (some (.httpStatus status))))
        else
          let r := retryAux doAttempt retryDelay now timeParse f (attemptNo + 1)
            (some (.httpStatus status))
          (.attempt attemptNo :: .sleep retryDelay :: r.1, r.2)
      else
        match decodeDCTrackResponse body with
        | .error m => ([.attempt attemptNo], .error (.decodeErr m))
        | .ok resp =>
          ([.attempt attemptNo],
           .ok (mapRecords (mapDCTrackRecord now timeParse)
                  resp.SearchResultsItems))

/-- Root-package `fetchPage`: run the retry loop from attempt 1 with
`maxRetries` attempts allowed, also returning the attempt/sleep trace. -/
def fetchPage {τ ε : Type} (doAttempt : Int → ReqOutcome ε)
    (maxRetries retryDelay : Int) (now : τ) (timeParse : String → Option τ) :
    List Event × Except (FetchErr ε) (List (DCTrackItem τ)) :=
  retryAux doAttempt retryDelay now timeParse maxRetries.toNat 1 none

end Root

/-- The page loop of `GetItemsWithParams` (root package, lines 264-308),
written as recursion on a fuel bound; `none` means the fuel ran out
before the loop did.  `fetch` abstracts one `fetchPage` call; the loop
never inspects items beyond their count, so the item type is a
parameter.  A result carries the list of requested page numbers (the
trace), the returned item slice and the returned error; on a page error
the accumulated items are dropped and `(nil, err)` is returned, a page
with zero items or fewer items than `pageSize` ends the loop, an
explicit single-page request (`params.PageNumber > 0`) ends it after one
page, and otherwise the loop continues with `page + 1`. -/
def pagLoop {α ε : Type} (fetch : Nat → Except ε (List α)) (pageSize : Int)
    (single : Bool) : Nat → Nat → Option (List Nat × List α × Option ε)
  | 0, _ => none
  | Nat.succ fuel, page =>
    match fetch page with
    | .error e => some ([page], [], some e)
    | .ok items =>
      if items.length = 0 then some ([page], [], none)
      else if (items.length : Int) < pageSize then some ([page], items, none)
      else if single then some ([page], items, none)
      else
        match pagLoop fetch pageSize single fuel (page + 1) with
        | none => none
        | some (trace, rest, none) => some (page :: trace, items ++ rest, none)
        | some (trace, _, some e) => some (page :: trace, [], some e)

/-- `GetItemsWithParams`: log in first (a login failure aborts with no
items), then derive the start page and effective page size from the
parameters and run the page loop. -/
def GetItemsWithParams {α ε : Type} (loginErr : Option ε)
    (fetch : Nat → Except ε (List α)) (configPageSize : Int)
    (paramsPageNumber paramsPageSize : Int) (fuel : Nat) :
    Option (List Nat × List α × Option ε) :=
  match loginErr with
  | some e => some ([], [], some e)
  | none =>
    let page : Nat := if paramsPageNumber > 0 then paramsPageNumber.toNat else 1
    let pageSize : Int :=
      if paramsPageSize > 0 then paramsPageSize else configPageSize
    pagLoop fetch pageSize (decide (paramsPageNumber > 0)) fuel page

/-- The error cases of `login`, one per return site in the source. -/
inductive LoginErr where
  | loginFailedWithStatus (status : Int)
  | noAuthorizationHeader
  | invalidAuthorizationHeaderFormat
deriving DecidableEq

/-- `login` (root package, lines 351-395): the HTTP exchange is
abstracted to the response status and the `Authorization` header value
(`resp.Header.Get` yields the empty string for a missing header).  The Go
byte slicing of the header is modelled on its character list — the
compared prefix is ASCII.  On status 200 with a header longer than 7
bytes starting with `Bearer `, the token is the rest of the header. -/
def login (status : Int) (authHeader : List Char) :
    Except LoginErr (List Char) :=
  if status ≠ 200 then .error (.loginFailedWithStatus status)
  else if authHeader = [] then .error .noAuthorizationHeader
  else if authHeader.length > 7 ∧ authHeader.take 7 = "Bearer ".toList then
    .ok (authHeader.drop 7)
  else .error .invalidAuthorizationHeaderFormat

/-- Combined behaviour of the page loop, proved once by induction on the
fuel and projected by the per-claim theorems: the requested pages are
consecutive from the start page; at least one page is requested; a
single-page request stops after one page; a page with zero items or
fewer than `pageSize` items is the last page requested; a full page (in
the multi-page mode) is followed by the next page number; on success the
items are the items of the fetched pages concatenated in page order; on error
no items are returned and some requested page failed with that error. -/
theorem pagLoop_spec {α ε : Type} (fetch : Nat → Except ε (List α))
    (pageSize : Int) (single : Bool) :
    ∀ (fuel start : Nat) (trace : List Nat) (items : List α) (err : Option ε),
      pagLoop fetch pageSize single fuel start = some (trace, items, err) →
      trace = List.range' start trace.length ∧
      trace ≠ [] ∧
      (∀ q ∈ trace, start ≤ q) ∧
      (single = true → trace = [start]) ∧
      (∀ p ∈ trace, ∀ its, fetch p = .ok its →
        (its = [] ∨ (its.length : Int) < pageSize) → ∀ q ∈ trace, q ≤ p) ∧
      (∀ p ∈ trace, ∀ its, fetch p = .ok its → its ≠ [] →
        ¬((its.length : Int) < pageSize) → single = false → p + 1 ∈ trace) ∧
      (err = none →
        items = (trace.map (fun p => ((fetch p).toOption.getD []))).flatten) ∧
      (∀ e, err = some e → items = [] ∧ ∃ p ∈ trace, fetch p = .error e) := by
  intro fuel
  induction fuel with
  | zero =>
    intro start trace items err h
    simp [pagLoop] at h
  | succ fuel ih =>
    intro start trace items err h
    rw [pagLoop] at h
    cases hf : fetch start with
    | error e =>
      rw [hf] at h
      simp only [Option.some.injEq, Prod.mk.injEq] at h
      obtain ⟨ht, hi, he⟩ := h
      subst ht; subst hi; subst he
      refine ⟨by simp [List.range'], by simp, by simp, fun _ => rfl,
        ?_, ?_, ?_, ?_⟩
      · intro p hp its hok _ q hq
        simp at hp hq; subst hp; subst hq; exact le_refl _
      · intro p hp its hok
        simp at hp; subst hp
        rw [hf] at hok; cases hok
      · intro hnone; cases hnone
      · intro e' he'
        refine ⟨rfl, start, by simp, ?_⟩
        cases he'; exact hf
    | ok its =>
      rw [hf] at h
      dsimp only at h
      by_cases h0 : its.length = 0
      · rw [if_pos h0] at h
        simp only [Option.some.injEq, Prod.mk.injEq] at h
        obtain ⟨ht, hi, he⟩ := h
        subst ht; subst hi; subst he
        have hits : its = [] := List.length_eq_zero.mp h0
        refine ⟨by simp [List.range'], by simp, by simp, fun _ => rfl,
          ?_, ?_, ?_, ?_⟩
        · intro p hp _ _ _ q hq
          simp at hp hq; subst hp; subst hq; exact le_refl _
        · intro p hp its₂ hok hne _ _
          simp at hp; subst hp
          rw [hf] at hok
          cases hok
          exact absurd hits hne
        · intro _
          simp [hf, hits, Except.toOption]
        · intro e' he'; cases he'
      · rw [if_neg h0] at h
        by_cases h1 : (its.length : Int) < pageSize
        · rw [if_pos h1] at h
          simp only [Option.some.injEq, Prod.mk.injEq] at h
          obtain ⟨ht, hi, he⟩ := h
          subst ht; subst hi; subst he
          refine ⟨by simp [List.range'], by simp, by simp, fun _ => rfl,
            ?_, ?_, ?_, ?_⟩
          · intro p hp _ _ _ q hq
            simp at hp hq; subst hp; subst hq; exact le_refl _
          · intro p hp its₂ hok _ hfull _
            simp at hp; subst hp
            rw [hf] at hok
            cases hok
            exact absurd h1 hfull
          · intro _
            simp [hf, Except.toOption]
          · intro e' he'; cases he'
        · rw [if_neg h1] at h
          by_cases hs : single = true
          · rw [if_pos hs] at h
            simp only [Option.some.injEq, Prod.mk.injEq] at h
            obtain ⟨ht, hi, he⟩ := h
            subst ht; subst hi; subst he
            refine ⟨by simp [List.range'], by simp, by simp, fun _ => rfl,
              ?_, ?_, ?_, ?_⟩
            · intro p hp its₂ hok hshort q hq
              simp at hp hq; subst hp; subst hq; exact le_refl _
            · intro p hp _ _ _ _ hsf
              rw [hs] at hsf; cases hsf
            · intro _
              simp [hf, Except.toOption]
            · intro e' he'; cases he'
          · rw [if_neg hs] at h
            have hsf : single = false := Bool.eq_false_iff.mpr hs
            cases hrec : pagLoop fetch pageSize single fuel (start + 1) with
            | none => rw [hrec] at h; cases h
            | some r =>
              obtain ⟨tl, rest, errI⟩ := r
              rw [hrec] at h
              obtain ⟨ihRange, ihNe, ihGe, _, ihStop, ihNext, ihFlat, ihErr⟩ :=
                ih (start + 1) tl rest errI hrec
              have hheadtl : start + 1 ∈ tl := by
                obtain ⟨x, xs, htl⟩ := List.exists_cons_of_ne_nil ihNe
                have : x :: xs = List.range' (start + 1) (xs.length + 1) := by
                  rw [← htl, ihRange, htl]; simp
                rw [List.range'_succ] at this
                rw [htl, (List.cons.injEq ..).mp this |>.1]
                exact List.mem_cons_self _ _
              cases errI with
              | none =>
                simp only [Option.some.injEq, Prod.mk.injEq] at h
                obtain ⟨ht, hi, he⟩ := h
                subst ht; subst hi; subst he
                refine ⟨?_, by simp, ?_, ?_, ?_, ?_, ?_, ?_⟩
                · simpa [List.range'_succ] using ihRange
                · intro q hq
                  rcases List.mem_cons.mp hq with hq | hq
                  · exact le_of_eq hq.symm
                  · exact le_trans (Nat.le_succ _) (ihGe q hq)
                · intro hst; rw [hsf] at hst; cases hst
                · intro p hp its₂ hok hshort q hq
                  rcases List.mem_cons.mp hp with hp | hp
                  · subst hp
                    rw [hf] at hok
                    cases hok
                    rcases hshort with hshort | hshort
                    · exact absurd (by simp [hshort]) h0
                    · exact absurd hshort h1
                  · rcases List.mem_cons.mp hq with hq | hq
                    · rw [hq]; exact le_trans (Nat.le_succ _) (ihGe p hp)
                    · exact ihStop p hp its₂ hok hshort q hq
                · intro p hp its₂ hok hne hfull _
                  rcases List.mem_cons.mp hp with hp | hp
                  · subst hp
                    exact List.mem_cons_of_mem _ hheadtl
                  · exact List.mem_cons_of_mem _
                      (ihNext p hp its₂ hok hne hfull hsf)
                · intro _
                  simp only [List.map_cons, List.flatten_cons, hf]
                  rw [ihFlat rfl]
                  rfl
                · intro e' he'; cases he'
              | some e =>
                simp only [Option.some.injEq, Prod.mk.injEq] at h
                obtain ⟨ht, hi, he⟩ := h
                subst ht; subst hi; subst he
                refine ⟨?_, by simp, ?_, ?_, ?_, ?_, ?_, ?_⟩
                · simpa [List.range'_succ] using ihRange
                · intro q hq
                  rcases List.mem_cons.mp hq with hq | hq
                  · exact le_of_eq hq.symm
                  · exact le_trans (Nat.le_succ _) (ihGe q hq)
                · intro hst; rw [hsf] at hst; cases hst
                · intro p hp its₂ hok hshort q hq
                  rcases List.mem_cons.mp hp with hp | hp
                  · subst hp
                    rw [hf] at hok
                    cases hok
                    rcases hshort with hshort | hshort
                    · exact absurd (by simp [hshort]) h0
                    · exact absurd hshort h1
                  · rcases List.mem_cons.mp hq with hq | hq
                    · rw [hq]; exact le_trans (Nat.le_succ _) (ihGe p hp)
                    · exact ihStop p hp its₂ hok hshort q hq
                · intro p hp its₂ hok hne hfull _
                  rcases List.mem_cons.mp hp with hp | hp
                  · subst hp
                    exact List.mem_cons_of_mem _ hheadtl
                  · exact List.mem_cons_of_mem _
                      (ihNext p hp its₂ hok hne hfull hsf)
                · intro hnone; cases hnone
                · intro e' he'
                  obtain ⟨-, p, hp, hpe⟩ := ihErr e (by cases he'; rfl)
                  exact ⟨rfl, p, List.mem_cons_of_mem _ hp, by cases he'; exact hpe⟩

/-- C1: after a page yields fewer items than the page size (including
zero), no further page is requested; an explicit page-number request
fetches exactly one page regardless of its size; otherwise each
full-sized page is followed by a request for the incremented page
number (the trace of requested pages is consecutive from the start
page). -/
theorem C1_pagination_termination {α ε : Type} (fetch : Nat → Except ε (List α))
    (configPageSize paramsPageNumber paramsPageSize : Int) (fuel : Nat)
    (trace : List Nat) (items : List α) (err : Option ε)
    (h : GetItemsWithParams none fetch configPageSize paramsPageNumber
      paramsPageSize fuel = some (trace, items, err)) :
    (paramsPageNumber > 0 → trace = [paramsPageNumber.toNat]) ∧
    trace = List.range'
      (if paramsPageNumber > 0 then paramsPageNumber.toNat else 1)
      trace.length ∧
    (∀ p ∈ trace, ∀ its, fetch p = .ok its →
      (its = [] ∨ (its.length : Int) <
        (if paramsPageSize > 0 then paramsPageSize else configPageSize)) →
      ∀ q ∈ trace, q ≤ p) ∧
    (∀ p ∈ trace, ∀ its, fetch p = .ok its → its ≠ [] →
      ¬((its.length : Int) <
        (if paramsPageSize > 0 then paramsPageSize else configPageSize)) →
      paramsPageNumber ≤ 0 → p + 1 ∈ trace) := by
  rw [GetItemsWithParams] at h
  obtain ⟨ihRange, -, -, ihSingle, ihStop, ihNext, -, -⟩ :=
    pagLoop_spec fetch _ _ fuel _ trace items err h
  refine ⟨?_, ?_, ihStop, ?_⟩
  · intro hpos
    rw [ihSingle (decide_eq_true hpos), if_pos hpos]
  · exact ihRange
  · intro p hp its hok hne hfull hle
    exact ihNext p hp its hok hne hfull (decide_eq_false (not_lt.mpr hle))

/-- Concrete fetch oracle: page 1 yields two items, page 2 two more,
every later page is empty. -/
def cfW : Nat → Except String (List String) := fun p =>
  if p = 1 then .ok ["a", "b"] else if p = 2 then .ok ["c", "d"] else .ok []

theorem C1_pagination_termination_witness :
    GetItemsWithParams (none : Option String) cfW 2 0 0 9 =
      some ([1, 2, 3], ["a", "b", "c", "d"], none) ∧
    (2 : Nat) ∈ [1, 2, 3] ∧ (3 : Nat) ∈ [1, 2, 3] := by
  have h : GetItemsWithParams (none : Option String) cfW 2 0 0 9 =
      some ([1, 2, 3], ["a", "b", "c", "d"], none) := by decide
  have spec := C1_pagination_termination cfW 2 0 0 9 _ _ _ h
  exact ⟨h,
    spec.2.2.2 1 (by decide) ["a", "b"] rfl (by decide) (by decide) (by decide),
    spec.2.2.2 2 (by decide) ["c", "d"] rfl (by decide) (by decide) (by decide)⟩

/-- C5: the top-level fetch is all-or-nothing — whenever the returned
error is present, the returned item sequence is empty (partial results
from earlier pages are discarded), and the error is the login failure or
the failure of one of the requested pages. -/
theorem C5_all_or_nothing {α ε : Type} (loginErr : Option ε)
    (fetch : Nat → Except ε (List α))
    (configPageSize paramsPageNumber paramsPageSize : Int) (fuel : Nat)
    (trace : List Nat) (items : List α) (e : ε)
    (h : GetItemsWithParams loginErr fetch configPageSize paramsPageNumber
      paramsPageSize fuel = some (trace, items, some e)) :
    items = [] ∧ (loginErr = some e ∨ ∃ p ∈ trace, fetch p = .error e) := by
  cases loginErr with
  | some e₀ =>
    rw [GetItemsWithParams] at h
    simp only [Option.some.injEq, Prod.mk.injEq] at h
    obtain ⟨-, hi, he⟩ := h
    exact ⟨hi.symm, Or.inl (by rw [← he])⟩
  | none =>
    rw [GetItemsWithParams] at h
    obtain ⟨-, -, -, -, -, -, -, ihErr⟩ :=
      pagLoop_spec fetch _ _ fuel _ trace items (some e) h
    obtain ⟨hi, hp⟩ := ihErr e rfl
    exact ⟨hi, Or.inr hp⟩

/-- Concrete fetch oracle whose second page fails. -/
def cf5 : Nat → Except String (List String) := fun p =>
  if p = 2 then .error "boom" else .ok ["x", "y"]

theorem C5_all_or_nothing_witness :
    GetItemsWithParams (none : Option String) cf5 2 0 0 9 =
      some ([1, 2], [], some "boom") ∧ ([] : List String) = [] := by
  have h : GetItemsWithParams (none : Option String) cf5 2 0 0 9 =
      some ([1, 2], [], some "boom") := by decide
  exact ⟨h, (C5_all_or_nothing none cf5 2 0 0 9 [1, 2] [] "boom" h).1⟩

/-- C9: on success the returned items are exactly the items of the
fetched pages concatenated in page-fetch order — no re-ordering across page
boundaries and no deduplication by ID. -/
theorem C9_page_order {α ε : Type} (fetch : Nat → Except ε (List α))
    (configPageSize paramsPageNumber paramsPageSize : Int) (fuel : Nat)
    (trace : List Nat) (items : List α)
    (h : GetItemsWithParams none fetch configPageSize paramsPageNumber
      paramsPageSize fuel = some (trace, items, none)) :
    items = (trace.map (fun p => ((fetch p).toOption.getD []))).flatten := by
  rw [GetItemsWithParams] at h
  obtain ⟨-, -, -, -, -, -, ihFlat, -⟩ :=
    pagLoop_spec fetch _ _ fuel _ trace items none h
  exact ihFlat rfl

theorem C9_page_order_witness :
    GetItemsWithParams (none : Option String) cfW 2 0 0 9 =
      some ([1, 2, 3], ["a", "b", "c", "d"], none) ∧
    (["a", "b", "c", "d"] : List String) =
      (([1, 2, 3] : List Nat).map
        (fun p => ((cfW p).toOption.getD []))).flatten := by
  have h : GetItemsWithParams (none : Option String) cfW 2 0 0 9 =
      some ([1, 2, 3], ["a", "b", "c", "d"], none) := by decide
  exact ⟨h, C9_page_order cfW 2 0 0 9 [1, 2, 3] ["a", "b", "c", "d"] h⟩

/-- One failing, non-final retry attempt: the attempt is made, the fixed
delay is slept, and the loop continues with the next attempt number and
the failure remembered in `lastErr`. -/
theorem retryAux_fail_step {τ ε : Type} (doAttempt : Int → ReqOutcome ε)
    (d : Int) (now : τ) (tp : String → Option τ) (f : Nat) (a : Int)
    (le : Option (UnderlyingErr ε)) (u : UnderlyingErr ε)
    (hf : failureOf (doAttempt a) = some u) :
    Root.retryAux doAttempt d now tp (f + 2) a le =
      (Event.attempt a :: Event.sleep d ::
        (Root.retryAux doAttempt d now tp (f + 1) (a + 1) (some u)).1,
       (Root.retryAux doAttempt d now tp (f + 1) (a + 1) (some u)).2) := by
  cases ho : doAttempt a with
  | netErr e =>
    rw [ho] at hf
    simp only [failureOf, Option.some.injEq] at hf
    subst hf
    simp [Root.retryAux, ho]
  | resp s b =>
    rw [ho] at hf
    by_cases hs : s ≠ 200
    · simp only [failureOf, if_pos hs, Option.some.injEq] at hf
      subst hf
      simp [Root.retryAux, ho, if_pos hs]
    · simp [failureOf, if_neg hs] at hf

/-- One failing, final retry attempt: the attempt is made and the
exhausted loop returns the aggregated error wrapping this failure. -/
theorem retryAux_fail_last {τ ε : Type} (doAttempt : Int → ReqOutcome ε)
    (d : Int) (now : τ) (tp : String → Option τ) (a : Int)
    (le : Option (UnderlyingErr ε)) (u : UnderlyingErr ε)
    (hf : failureOf (doAttempt a) = some u) :
    Root.retryAux doAttempt d now tp 1 a le =
      ([Event.attempt a], .error (.allRetriesFailed (some u))) := by
  cases ho : doAttempt a with
  | netErr e =>
    rw [ho] at hf
    simp only [failureOf, Option.some.injEq] at hf
    subst hf
    simp [Root.retryAux, ho]
  | resp s b =>
    rw [ho] at hf
    by_cases hs : s ≠ 200
    · simp only [failureOf, if_pos hs, Option.some.injEq] at hf
      subst hf
      simp [Root.retryAux, ho, if_pos hs]
    · simp [failureOf, if_neg hs] at hf

/-- Shared helper: a `fetchPage` run with `maxRetries = 3` whose every
exchange fails makes exactly 3 attempts separated by the fixed delay and
wraps the failure of the third attempt. -/
theorem fetchPage_allFail {τ ε : Type} (now : τ) (tp : String → Option τ)
    (doAttempt : Int → ReqOutcome ε) (d : Int)
    (hfail : ∀ n, (failureOf (doAttempt n)).isSome = true) :
    Root.fetchPage doAttempt 3 d now tp =
      ([.attempt 1, .sleep d, .attempt 2, .sleep d, .attempt 3],
       .error (.allRetriesFailed (failureOf (doAttempt 3)))) := by
  obtain ⟨u1, hu1⟩ := Option.isSome_iff_exists.mp (hfail 1)
  obtain ⟨u2, hu2⟩ := Option.isSome_iff_exists.mp (hfail 2)
  obtain ⟨u3, hu3⟩ := Option.isSome_iff_exists.mp (hfail 3)
  show Root.retryAux doAttempt d now tp 3 1 none = _
  rw [show (3 : Nat) = 1 + 2 from rfl,
    retryAux_fail_step doAttempt d now tp 1 1 none u1 hu1,
    show (1 + 1 : Nat) = 0 + 2 from rfl,
    retryAux_fail_step doAttempt d now tp 0 (1 + 1) (some u1) u2 (by norm_num; exact hu2),
    retryAux_fail_last doAttempt d now tp (1 + 1 + 1) (some u2) u3 (by norm_num; exact hu3),
    hu3]
  norm_num

/-- C2: with `maxRetries = 3` against an endpoint whose every exchange
fails (network error or non-200 status), exactly 3 attempts are made,
consecutive attempts are separated by one `time.Sleep` of the same
configured fixed delay (no exponential backoff), and the operation
returns the aggregated error wrapping the last underlying failure. -/
theorem C2_retry_fixed_delay {τ ε : Type} (now : τ) (tp : String → Option τ)
    (doAttempt : Int → ReqOutcome ε) (d : Int)
    (hfail : ∀ n, (failureOf (doAttempt n)).isSome = true) :
    Root.fetchPage doAttempt 3 d now tp =
      ([.attempt 1, .sleep d, .attempt 2, .sleep d, .attempt 3],
       .error (.allRetriesFailed (failureOf (doAttempt 3)))) :=
  fetchPage_allFail now tp doAttempt d hfail

/-- Exchange oracle that fails on every attempt. -/
def respondFailW : Int → ReqOutcome String := fun _ => .netErr "connection refused"

theorem C2_retry_fixed_delay_witness :
    Root.fetchPage respondFailW 3 7 () (fun _ => none) =
      ([.attempt 1, .sleep 7, .attempt 2, .sleep 7, .attempt 3],
       .error (.allRetriesFailed (some (.net "connection refused")))) := by
  have h := C2_retry_fixed_delay () (fun _ => none) respondFailW 7 (fun n => rfl)
  simpa [respondFailW, failureOf] using h

/-- Exchange oracle modelling a context cancelled during the first
inter-retry delay: the first attempt fails with an ordinary network
error, and every later attempt — issued after the cancellation — fails
immediately with the cancellation error `http.Client.Do` returns for a
cancelled context. -/
def cancelRespond : Int → ReqOutcome String := fun n =>
  if n = 1 then .netErr "connection timeout" else .netErr "context canceled"

/-- C8 counterexample: the claim says a cancellation firing during an
inter-retry delay makes the fetch return a cancellation error without
carrying out the remaining retry attempts.  The source sleeps with
`time.Sleep`, which no cancellation can interrupt: with `maxRetries = 3`
and the context cancelled during the first delay, attempts 2 and 3 are
still made and the second full fixed delay is still slept, as the trace
shows. -/
theorem C8_cancellation_counterexample :
    (Root.fetchPage cancelRespond 3 1 () (fun _ => none)).1 =
      [.attempt 1, .sleep 1, .attempt 2, .sleep 1, .attempt 3] ∧
    (Root.fetchPage cancelRespond 3 1 () (fun _ => none)).2 =
      .error (.allRetriesFailed (some (.net "context canceled"))) :=
  ⟨rfl, rfl⟩

/-- C8 amended: a cancellation that fires during an inter-retry delay
does not interrupt the blocking `time.Sleep`; the loop carries out all
remaining attempts (each failing immediately with the cancellation
error) and sleeps every remaining fixed delay, and only after
`maxRetries` attempts returns an error wrapping the cancellation error —
bounded time, but not prompt cancellation. -/
theorem C8_cancellation_amended {τ ε : Type} (now : τ) (tp : String → Option τ)
    (doAttempt : Int → ReqOutcome ε) (d : Int) (e₁ ec : ε)
    (h1 : doAttempt 1 = .netErr e₁)
    (hc : ∀ n, n ≠ 1 → doAttempt n = .netErr ec) :
    Root.fetchPage doAttempt 3 d now tp =
      ([.attempt 1, .sleep d, .attempt 2, .sleep d, .attempt 3],
       .error (.allRetriesFailed (some (.net ec)))) := by
  have hfail : ∀ n, (failureOf (doAttempt n)).isSome = true := by
    intro n
    by_cases hn : n = 1
    · rw [hn, h1]; rfl
    · rw [hc n hn]; rfl
  have h3 : failureOf (doAttempt 3) = some (.net ec) := by
    rw [hc 3 (by norm_num)]; rfl
  rw [fetchPage_allFail now tp doAttempt d hfail, h3]

theorem C8_cancellation_amended_witness :
    Root.fetchPage cancelRespond 3 5 () (fun _ => none) =
      ([.attempt 1, .sleep 5, .attempt 2, .sleep 5, .attempt 3],
       .error (.allRetriesFailed (some (.net "context canceled")))) :=
  C8_cancellation_amended () (fun _ => none) cancelRespond 5
    "connection timeout" "context canceled" rfl
    (fun n hn => by simp [cancelRespond, hn])

/-- C4: `login` returns a (necessarily non-empty) token exactly when the
status is 200 and the Authorization header is a well-formed
`Bearer <token>` carrier with a non-empty token; any non-200 status
yields the invalid-credentials error; a 200 response with a missing or
malformed carrier yields one of the two malformed-response errors. -/
theorem C4_login_classification (status : Int) (hdr : List Char) :
    (∀ t, login status hdr = .ok t →
      status = 200 ∧ t ≠ [] ∧ hdr = "Bearer ".toList ++ t) ∧
    (status ≠ 200 → login status hdr = .error (.loginFailedWithStatus status)) ∧
    (∀ t, t ≠ [] → hdr = "Bearer ".toList ++ t → status = 200 →
      login status hdr = .ok t) ∧
    (status = 200 → (¬ ∃ t, t ≠ [] ∧ hdr = "Bearer ".toList ++ t) →
      login status hdr = .error .noAuthorizationHeader ∨
      login status hdr = .error .invalidAuthorizationHeaderFormat) := by
  refine ⟨?_, ?_, ?_, ?_⟩
  · intro t hok
    rw [login] at hok
    split_ifs at hok with hst hemp hbear
    · cases hok
      obtain ⟨hlen, htake⟩ := hbear
      have hdrop : hdr.drop 7 ≠ [] := by
        have : 0 < (hdr.drop 7).length := by simp; omega
        exact List.ne_nil_of_length_pos this
      refine ⟨by omega, hdrop, ?_⟩
      conv =>
        left
        rw [← List.take_append_drop 7 hdr]
      rw [htake]
  · intro hst
    rw [login, if_pos hst]
  · intro t ht hhdr hst
    have hlen7 : ("Bearer ".toList).length = 7 := by decide
    rw [login, if_neg (by omega)]
    rw [hhdr]
    rw [if_neg (by simp), if_pos ?_]
    · rw [← hlen7, List.drop_left]
    · constructor
      · have : 0 < t.length := List.length_pos.mpr ht
        simp
        omega
      · rw [← hlen7, List.take_left]
  · intro hst hno
    rw [login, if_neg (by omega)]
    by_cases hemp : hdr = []
    · rw [if_pos hemp]
      exact Or.inl rfl
    · rw [if_neg hemp]
      by_cases hbear : hdr.length > 7 ∧ hdr.take 7 = "Bearer ".toList
      · exfalso
        apply hno
        refine ⟨hdr.drop 7, ?_, ?_⟩
        · have : 0 < (hdr.drop 7).length := by simp; omega
          exact List.ne_nil_of_length_pos this
        · conv =>
            left
            rw [← List.take_append_drop 7 hdr]
          rw [hbear.2]
      · rw [if_neg hbear]
        exact Or.inr rfl

theorem C4_login_classification_witness :
    login 200 ("Bearer tok".toList) = .ok ("tok".toList) ∧
    login 401 ("Bearer tok".toList) = .error (.loginFailedWithStatus 401) := by
  refine ⟨?_, ?_⟩
  · exact (C4_login_classification 200 ("Bearer tok".toList)).2.2.1
      ("tok".toList) (by decide) (by decide) rfl
  · exact (C4_login_classification 401 ("Bearer tok".toList)).2.1 (by decide)

/-- The mapping loop of `fetchPage` keeps exactly the records that map
successfully, in order: per-record failures are non-fatal to the page. -/
theorem mapRecords_eq_filterMap {τ : Type}
    (f : RawRecord → Except String (DCTrackItem τ)) :
    ∀ rs : List RawRecord,
      mapRecords f rs = rs.filterMap (fun r => (f r).toOption) := by
  intro rs
  induction rs with
  | nil => rfl
  | cons r rs ih =>
    simp only [mapRecords]
    cases hf : f r with
    | error e => simp [hf, Except.toOption, ih]
    | ok it => simp [hf, Except.toOption, ih]

/-- A one-record raw page as decoded from the wire. -/
def recA : RawRecord := [("id", Json.str "r1"), ("tiName", Json.str "N")]

/-- A shape-A response body carrying that record in a flat `records`
list. -/
def shapeAEnvelope : Json := Json.obj [("records", Json.arr [Json.obj recA])]

/-- A shape-B response body carrying that record under
`searchResults.items` together with the pagination metadata. -/
def shapeBEnvelope : Json :=
  Json.obj
    [("totalRows", Json.int 1), ("pageNumber", Json.int 1),
     ("pageSize", Json.int 10),
     ("searchResults", Json.obj [("items", Json.arr [Json.obj recA])])]

/-- C3 counterexample: neither envelope decoder detects both shapes.  The
root-package decoder accepts the well-formed shape-A body but extracts
none of the records it carries (the `records` key is silently ignored);
symmetrically, the sub-package decoder accepts the well-formed shape-B
body and extracts nothing. -/
theorem C3_envelope_shapes_counterexample :
    Root.decodeDCTrackResponse shapeAEnvelope =
      .ok { TotalRows := 0, PageNumber := 0, PageSize := 0,
            SearchResultsItems := [] } ∧
    Pkg.decodeDCTrackResponse shapeBEnvelope = .ok { Records := [] } :=
  ⟨rfl, rfl⟩

/-- C3 amended: the decoder of each client variant supports exactly one wire
shape, with no auto-detection: the root-package decoder extracts the
records of a shape-B body (with its `totalRows`/`pageNumber`/`pageSize`
metadata), and the sub-package decoder extracts the records of a shape-A
body; a body in the other shape decodes without error but yields zero
records. -/
theorem C3_envelope_shapes_amended :
    Root.decodeDCTrackResponse shapeBEnvelope =
      .ok { TotalRows := 1, PageNumber := 1, PageSize := 10,
            SearchResultsItems := [recA] } ∧
    Pkg.decodeDCTrackResponse shapeAEnvelope = .ok { Records := [recA] } :=
  ⟨rfl, rfl⟩

/-- Trivial time-parse oracle for concrete runs (no date field matters
to any claim). -/
def tpNone : String → Option Unit := fun _ => none

/-- A raw record missing the identifier field but carrying the other
required fields. -/
def recNoId : RawRecord :=
  [("tiName", Json.str "Server X"), ("tiClass", Json.str "Device"),
   ("cmbStatus", Json.str "Installed"), ("cmbLocation", Json.str "DC1")]

/-- C6 counterexample: the implementation does not follow one single
required-field policy — on the same record missing the identifier, the
root-package mapper rejects with an error while the sub-package mapper
accepts with an empty-string identifier. -/
theorem C6_required_policy_counterexample :
    Root.mapDCTrackRecord () tpNone recNoId =
      .error "missing required field: id" ∧
    (Pkg.mapDCTrackRecord () tpNone recNoId).toOption.map
      (fun it => it.ID) = some "" :=
  ⟨rfl, rfl⟩

/-- C6 amended: the policy of each variant is deterministic but the two
differ — for every record without an `id` key, the root-package mapper
always rejects with the missing-id error while the sub-package mapper
always accepts with the empty default; and in both variants per-record
mapping failures are non-fatal to the page: the mapping loop keeps
exactly the successfully mapped records, in order. -/
theorem C6_required_policy_amended {τ : Type} (now : τ)
    (tp : String → Option τ) (record : RawRecord)
    (h : List.lookup "id" record = none) :
    Root.mapDCTrackRecord now tp record =
      .error "missing required field: id" ∧
    (∃ it, Pkg.mapDCTrackRecord now tp record = .ok it ∧ it.ID = "") ∧
    (∀ f : RawRecord → Except String (DCTrackItem τ), ∀ rs : List RawRecord,
      mapRecords f rs = rs.filterMap (fun r => (f r).toOption)) := by
  refine ⟨?_, ?_, fun f rs => mapRecords_eq_filterMap f rs⟩
  · simp [Root.mapDCTrackRecord, getString, h]
  · exact ⟨_, rfl, by simp [getString, h]⟩

theorem C6_required_policy_amended_witness :
    Root.mapDCTrackRecord () tpNone recNoId =
      .error "missing required field: id" ∧
    mapRecords (fun r => Pkg.mapDCTrackRecord () tpNone r) [recNoId] =
      [recNoId].filterMap
        (fun r => (Pkg.mapDCTrackRecord () tpNone r).toOption) := by
  have h := C6_required_policy_amended () tpNone recNoId rfl
  exact ⟨h.1, h.2.2 (fun r => Pkg.mapDCTrackRecord () tpNone r) [recNoId]⟩

/-- The raw record of spec property 4, with its abstract field names. -/
def recAbstract : RawRecord :=
  [("id", Json.str "t1"), ("name", Json.str "Server1"),
   ("power", Json.str "500.5")]

/-- The same record under the wire field names the mappers actually
read. -/
def recWire : RawRecord :=
  [("id", Json.str "t1"), ("tiName", Json.str "Server1"),
   ("tiItemOriginalPower", Json.str "500.5")]

/-- C7 counterexample: mapping the record `id:"t1", name:"Server1",
power:"500.5"` as written does not yield power 500.5 — no mapper reads
the keys `name` or `power`: the sub-package mapper returns an item with
`Name = ""` and `OriginalPower = 0`, and the root-package mapper rejects
the record because the required wire field `tiName` is absent. -/
theorem C7_float_roundtrip_counterexample :
    (Pkg.mapDCTrackRecord () tpNone recAbstract).toOption.map
      (fun it => (it.ID, it.Name, it.OriginalPower)) =
      some ("t1", "", 0) ∧
    Root.mapDCTrackRecord () tpNone recAbstract =
      .error "missing required field: tiName" :=
  ⟨rfl, rfl⟩

/-- C7 amended: float coercion parses the stringified wire value as a
decimal number and yields 0 on parse failure, null or absence (the
root-package variant parses a leading prefix via `fmt.Sscanf`, the
sub-package variant requires the whole string via `strconv.ParseFloat`);
the round trip holds for the actual wire field names: mapping
`id:"t1", tiName:"Server1", tiItemOriginalPower:"500.5"` through the
sub-package mapper yields ID `"t1"` and `OriginalPower = 500.5` — while
the root-package mapper rejects even this record, since the further
required fields `tiClass`/`cmbStatus`/`cmbLocation` are absent. -/
theorem C7_float_roundtrip_amended :
    (Pkg.mapDCTrackRecord () tpNone recWire).toOption.map
      (fun it => (it.ID, it.Name, it.OriginalPower)) =
      some ("t1", "Server1", (500.5 : ℚ)) ∧
    Pkg.getFloat recWire "tiItemOriginalPower" = (500.5 : ℚ) ∧
    Root.getFloat recWire "tiItemOriginalPower" = (500.5 : ℚ) ∧
    Pkg.getFloat recWire "absentKey" = 0 ∧
    Pkg.getFloat [("x", Json.null)] "x" = 0 ∧
    Pkg.getFloat [("x", Json.str "abc")] "x" = 0 ∧
    Root.getFloat [("x", Json.str "abc")] "x" = 0 ∧
    Root.mapDCTrackRecord () tpNone recWire =
      .error "missing required field: tiClass" := by
  have hval : ((natOfDigits ['5', '0', '0'] : ℚ) + fracOfDigits ['5']) =
      (500.5 : ℚ) := by
    unfold fracOfDigits
    rw [show natOfDigits ['5', '0', '0'] = 500 from rfl,
      show natOfDigits ['5'] = 5 from rfl]
    norm_num
  have hparse : parseFloatGo "500.5" = some (500.5 : ℚ) := by
    rw [show parseFloatGo "500.5" =
      some ((natOfDigits ['5', '0', '0'] : ℚ) + fracOfDigits ['5']) from rfl,
      hval]
  have hscan : sscanfFloat "500.5" = some (500.5 : ℚ) := by
    rw [show sscanfFloat "500.5" =
      some ((natOfDigits ['5', '0', '0'] : ℚ) + fracOfDigits ['5']) from rfl,
      hval]
  have hgfP : Pkg.getFloat recWire "tiItemOriginalPower" = (500.5 : ℚ) := by
    show (match parseFloatGo "500.5" with
      | some f => f
      | none => (0 : ℚ)) = (500.5 : ℚ)
    rw [hparse]
  have hgfR : Root.getFloat recWire "tiItemOriginalPower" = (500.5 : ℚ) := by
    show (match sscanfFloat "500.5" with
      | some f => f
      | none => (0 : ℚ)) = (500.5 : ℚ)
    rw [hscan]
  refine ⟨?_, hgfP, hgfR, rfl, rfl, rfl, rfl, rfl⟩
  show some ("t1", "Server1", Pkg.getFloat recWire "tiItemOriginalPower") =
    some ("t1", "Server1", (500.5 : ℚ))
  rw [hgfP]

/-- A raw record carrying all five required fields. -/
def goodRec : RawRecord :=
  [("id", Json.str "A1"), ("tiName", Json.str "Server A"),
   ("tiClass", Json.str "Device"), ("cmbStatus", Json.str "Installed"),
   ("cmbLocation", Json.str "DC1")]

/-- A shape-B envelope body for a list of raw records. -/
def envB (rs : List RawRecord) : Json :=
  Json.obj
    [("totalRows", Json.int 2), ("pageNumber", Json.int 1),
     ("pageSize", Json.int 2),
     ("searchResults", Json.obj [("items", Json.arr (rs.map Json.obj))])]

/-- Exchange oracle of the C10 scenario: page 1 answers 200 with an
envelope of exactly two raw records of which one (missing `id`) fails
mapping; every other page would answer a full page of two good
records. -/
def respond10 (page : Nat) : Int → ReqOutcome String := fun _ =>
  .resp 200 (if page = 1 then envB [goodRec, recNoId] else envB [goodRec, goodRec])

/-- The per-page fetch of the C10 scenario, `fetchPage` composed with
the oracle. -/
def fetch10 (page : Nat) : Except (FetchErr String) (List (DCTrackItem Unit)) :=
  (Root.fetchPage (respond10 page) 3 1 () tpNone).2

/-- C10: pagination termination is decided by the count of successfully
mapped items, not raw wire records — the envelope of page 1 carries exactly
`pageSize = 2` raw records, one fails mapping and is skipped, so the
page yields 1 item; the operation stops after page 1 (the request trace
is `[1]`, even though every later page would be full) and still returns
success with the truncated accumulated sequence of one item. -/
theorem C10_termination_by_mapped_count :
    (Root.decodeDCTrackResponse (envB [goodRec, recNoId])).toOption.map
      (fun r => r.SearchResultsItems.length) = some 2 ∧
    (fetch10 1).toOption.map List.length = some 1 ∧
    (GetItemsWithParams none fetch10 2 0 0 9).map
      (fun r => (r.1, r.2.1.map (fun it => it.ID), r.2.2.isSome)) =
      some ([1], ["A1"], false) :=
  ⟨rfl, rfl, rfl⟩

end DCTrack
